import Mathlib

/-!
Verification development for the input-specification layer of the PyWebIO
repository (`src/pywebio/input.py`).

The Python code is shallowly embedded: Python values are modelled by the
inductive type `PyVal` (dictionaries are ordered association lists, matching
CPython's insertion-ordered `dict`), raised exceptions are modelled by
`Except String`, and each Python function of `input.py` is translated to a
Lean function of the same name.  Python function objects (the `valid_func`
and `preprocess_func` callbacks stored by `input_group`) are carried as
opaque `PyVal` tags where only their identity matters.
-/

/-- A Python value, as used by `pywebio/input.py`.  `pydict` is an ordered
association list mirroring CPython's insertion-ordered dictionaries; distinct
constructors for `pylist` and `pytuple` mirror the fact that `isinstance(x, list)`
distinguishes lists from tuples. -/
inductive PyVal where
  | pynone : PyVal
  | pybool : Bool → PyVal
  | pyint : Int → PyVal
  | pystr : String → PyVal
  | pybytes : List Nat → PyVal
  | pylist : List PyVal → PyVal
  | pytuple : List PyVal → PyVal
  | pydict : List (String × PyVal) → PyVal

/-- `v is None` in Python. -/
def PyVal.isNone : PyVal → Bool
  | .pynone => true
  | _ => false

/-- `d[k]` lookup on an ordered dict, returning `none` when the key is absent
(first matching entry; the dicts built by the embedded code have unique keys). -/
def pyDictGet : List (String × PyVal) → String → Option PyVal
  | [], _ => Option.none
  | p :: t, k => if p.1 = k then some p.2 else pyDictGet t k

/-- `k in d` on an ordered dict. -/
def keyIn (d : List (String × PyVal)) (k : String) : Bool :=
  (pyDictGet d k).isSome

/-- `d[k] = v` on an ordered dict: overwrite the existing entry in place when
the key exists, append at the end otherwise (CPython dict assignment
semantics). -/
def pyDictSet : List (String × PyVal) → String → PyVal → List (String × PyVal)
  | [], k, v => [(k, v)]
  | p :: t, k, v => if p.1 = k then (k, v) :: t else p :: pyDictSet t k v

/-- `d.update(e)` on ordered dicts: entries of `e` are written into `d`
left to right. -/
def pyDictUpdate (d e : List (String × PyVal)) : List (String × PyVal) :=
  e.foldl (fun acc kv => pyDictSet acc kv.1 kv.2) d

/-- `d.pop(k, default)`'s effect on the dict: remove the entry named `k`. -/
def pyDictPop : List (String × PyVal) → String → List (String × PyVal)
  | [], _ => []
  | p :: t, k => if p.1 = k then pyDictPop t k else p :: pyDictPop t k

/- Widget-kind constants of `input.py` (lines 35-41). -/

def TEXT : String := "text"
def NUMBER : String := "number"
def PASSWORD : String := "password"
def CHECKBOX : String := "checkbox"
def RADIO : String := "radio"
def SELECT : String := "select"
def TEXTAREA : String := "textarea"

/-- One iteration of the loop of `_parse_select_options` (input.py lines
130-138).  An `assert` failure is modelled as `Except.error` with the assert's
message.  Note the branch order of the source: `Mapping` first, then
`isinstance(opt, list)` — a tuple is NOT a `list`, so it falls through to the
scalar branch `dict(value=opt, label=opt)`. -/
def parse_one_option (opt : PyVal) : Except String PyVal :=
  match opt with
  | .pydict kvs =>
      if keyIn kvs "value" && keyIn kvs "label" then .ok (.pydict kvs)
      else .error "options item must have value and label key"
  | .pylist xs =>
      if 1 < xs.length ∧ xs.length ≤ 4 then
        .ok (.pydict (List.zip ["value", "label", "selected", "disabled"] xs))
      else .error "options item format error"
  | v => .ok (.pydict [("value", v), ("label", v)])

/-- `_parse_select_options` (input.py lines 124-140): normalize each option
declaration in order; the first failing `assert` aborts the whole call. -/
def _parse_select_options : List PyVal → Except String (List PyVal)
  | [] => .ok []
  | opt :: rest => do
      let r ← parse_one_option opt
      let rs ← _parse_select_options rest
      pure (r :: rs)

/-- One iteration of the loop of `_parse_action_buttons` (input.py lines
210-218).  Buttons have no `selected` slot: a positional list must have
length 2 or 3 (`assert len(act) in (2, 3)`).  As in `parse_one_option`,
a tuple is not an `isinstance(act, list)` and lands in the scalar branch. -/
def parse_one_button (act : PyVal) : Except String PyVal :=
  match act with
  | .pydict kvs =>
      if keyIn kvs "value" && keyIn kvs "label" then .ok (.pydict kvs)
      else .error "actions item must have value and label key"
  | .pylist xs =>
      if xs.length = 2 ∨ xs.length = 3 then
        .ok (.pydict (List.zip ["value", "label", "disabled"] xs))
      else .error "actions item format error"
  | v => .ok (.pydict [("value", v), ("label", v)])

/-- `_parse_action_buttons` (input.py lines 199-220). -/
def _parse_action_buttons : List PyVal → Except String (List PyVal)
  | [] => .ok []
  | act :: rest => do
      let r ← parse_one_button act
      let rs ← _parse_action_buttons rest
      pure (r :: rs)

/-- A canonical option record: a mapping carrying both `value` and `label`
keys, the shape every record produced by `_parse_select_options` has. -/
def isCanonicalOption : PyVal → Bool
  | .pydict kvs => keyIn kvs "value" && keyIn kvs "label"
  | _ => false

/-- `_parse_args` (input.py lines 47-56): drop entries whose value is `None`,
merge the `other_html_attrs` bag last (its entries overwrite same-named ones),
then pop the `other_html_attrs` and `valid_func` keys.  The popped
`valid_func` (a function object, carried here as an opaque `PyVal`) is
returned alongside the spec dict. -/
def _parse_args (kwargs : List (String × PyVal)) :
    List (String × PyVal) × Option PyVal :=
  let kw1 := kwargs.filter (fun p => ! p.2.isNone)
  let extras := match pyDictGet kw1 "other_html_attrs" with
                | some (.pydict e) => e
                | _ => []
  let kw2 := pyDictUpdate kw1 extras
  let kw3 := pyDictPop kw2 "other_html_attrs"
  let vf := pyDictGet kw3 "valid_func"
  let kw4 := pyDictPop kw3 "valid_func"
  (kw4, vf)

/-- The `locals()` dictionary of `input` (input.py line 86) at the moment
`_parse_args(locals())` runs: the parameters in declaration order.  Optional
parameters defaulting to `None` are `Option PyVal` (absent = `None`); the
`valid_func` function object is not representable in `PyVal` and is omitted
(it is popped out of the spec by `_parse_args` in any case). -/
def input_locals (label : PyVal) (type : String) (name : PyVal)
    (value placeholder required readonly disabled help_text : Option PyVal)
    (other_html_attrs : List (String × PyVal)) : List (String × PyVal) :=
  [("label", label), ("type", .pystr type), ("name", name),
   ("value", value.getD .pynone), ("placeholder", placeholder.getD .pynone),
   ("required", required.getD .pynone), ("readonly", readonly.getD .pynone),
   ("disabled", disabled.getD .pynone), ("help_text", help_text.getD .pynone),
   ("other_html_attrs", .pydict other_html_attrs)]

/-- The spec-building part of `input` (input.py lines 59-97): parse the
arguments, then `assert type in {TEXT, NUMBER, PASSWORD, TEXTAREA}` — the
failed assert (message `Input type not allowed.`) is modelled as
`Except.error` and fires before any form specification exists.  The returned
value is the `item_spec` handed to `single_input`. -/
def input (label : PyVal) (type : String) (name : PyVal)
    (value placeholder required readonly disabled help_text : Option PyVal)
    (other_html_attrs : List (String × PyVal)) :
    Except String (List (String × PyVal)) :=
  let item_spec := (_parse_args (input_locals label type name value placeholder
      required readonly disabled help_text other_html_attrs)).1
  if type = TEXT ∨ type = NUMBER ∨ type = PASSWORD ∨ type = TEXTAREA then
    .ok item_spec
  else .error "Input type not allowed."

/-- The numeric value of a list of decimal digit characters. -/
def natOfDigits (cs : List Char) : Nat :=
  cs.foldl (fun a c => 10 * a + (c.toNat - 48)) 0

/-- The ASCII characters CPython's `int()` strips around a numeral
(`Py_UNICODE_ISSPACE` restricted to ASCII): HT LF VT FF CR (0x09-0x0d),
FS GS RS US (0x1c-0x1f) and the space. -/
def pyIsSpace (c : Char) : Bool :=
  c = ' ' || c = '\t' || c = '\n' || c = '\x0b' || c = '\x0c' || c = '\x0d' ||
  c = '\x1c' || c = '\x1d' || c = '\x1e' || c = '\x1f'

/-- Validity of the digit part after `int()`'s optional sign (PEP 515):
decimal digits possibly grouped by single underscores, an underscore only
ever standing between two digits.  `prev` is the character consumed just
before the remaining list: an underscore demands a digit before it
(`prev.isDigit`) and one after it (enforced when the next character is
consumed — a second underscore or the end of the string fails). -/
def groupedAux : Char → List Char → Bool
  | prev, [] => ! (prev = '_')
  | prev, c :: t =>
      if c = '_' then prev.isDigit && groupedAux c t
      else c.isDigit && groupedAux c t

/-- Parse the digit part of an `int()` literal: a non-empty,
underscore-grouped digit list yields the value of its digits (underscores
removed), anything else `none`. -/
def parseDigits (cs : List Char) : Option Nat :=
  match cs with
  | [] => Option.none
  | c :: t =>
      if c.isDigit && groupedAux c t then
        some (natOfDigits ((c :: t).filter (fun x => ! (x = '_'))))
      else Option.none

/-- Strip leading and trailing whitespace from a character list, as
`int()` does to its string argument. -/
def stripWS (cs : List Char) : List Char :=
  ((cs.dropWhile (fun c => pyIsSpace c)).reverse.dropWhile
    (fun c => pyIsSpace c)).reverse

/-- The Python built-in `int()` on a string (as used by the number-field
preprocess, input.py line 94): optional surrounding whitespace, an optional
sign, then a non-empty run of decimal digits, possibly grouped by single
underscores between digits (PEP 515); anything else raises `ValueError`.
The model is exact on ASCII strings; the non-ASCII decimal digits (Unicode
category Nd) and non-ASCII whitespace that CPython also accepts are outside
it, so the theorems below quantify only over ASCII-constrained inputs. -/
def pyIntOfString (s : String) : Except String Int :=
  match stripWS s.toList with
  | [] => .error "invalid literal for int()"
  | c :: rest =>
      if c = '-' then
        match parseDigits rest with
        | some n => .ok (-(n : Int))
        | Option.none => .error "invalid literal for int()"
      else if c = '+' then
        match parseDigits rest with
        | some n => .ok ((n : Int))
        | Option.none => .error "invalid literal for int()"
      else
        match parseDigits (c :: rest) with
        | some n => .ok ((n : Int))
        | Option.none => .error "invalid literal for int()"

/-- The Python built-in `int()` on the raw values a form can submit. -/
def int_builtin : PyVal → Except String PyVal
  | .pystr s => (pyIntOfString s).map (fun n => .pyint n)
  | .pyint n => .ok (.pyint n)
  | .pybool b => .ok (.pyint (if b then 1 else 0))
  | _ => .error "int() argument must be a string or a number"

/-- `preprocess_func` as defined inside `input` (input.py lines 92-95): the
closed-over `type` decides whether the raw value is passed to `int` or
returned unchanged. -/
def preprocess_func (type : String) (d : PyVal) : Except String PyVal :=
  if type = NUMBER then int_builtin d else .ok d

/-- Outcome of resolving one submitted field value. -/
inductive FieldOutcome where
  | resolved : PyVal → FieldOutcome
  | fieldError : String → String → FieldOutcome

/-- Modelled from the spec: the single-field resolution step of
`single_input`, which lives in module `pywebio.input_ctrl` — a module this
repository does not contain (input.py line 31 only imports it).  Per the
spec (section 4.3), a `TypeConversionError` thrown by the Preprocessing
Transform "is converted into a validator-style error message rather than
propagating as a fatal failure": the error is scoped to the field's name,
never fatal to the issuing computation. -/
def resolve_single (name : String) (type : String) (raw : PyVal) :
    FieldOutcome :=
  match preprocess_func type raw with
  | .ok v => .resolved v
  | .error msg => .fieldError name msg

/-- `text_inputs` (input.py line 307): the kinds eligible for the default
auto-focus. -/
def text_inputs : List String := [TEXT, NUMBER, PASSWORD, SELECT]

/-- `i.get('type') in text_inputs` (input.py line 308): `dict.get` yields
`None` on a missing key, and only a string value can match the set. -/
def spec_is_textlike (i : List (String × PyVal)) : Bool :=
  match pyDictGet i "type" with
  | some (.pystr t) => text_inputs.contains t
  | _ => false

/-- The `for ... break` loop of input.py lines 306-310: set
`auto_focus = True` on the first spec of text-like type, leaving every
other spec untouched. -/
def mark_first_focus : List (List (String × PyVal)) → List (List (String × PyVal))
  | [] => []
  | i :: rest =>
      if spec_is_textlike i then pyDictSet i "auto_focus" (.pybool true) :: rest
      else i :: mark_first_focus rest

/-- The auto-focus default of `input_group` (input.py lines 305-310): only
when no spec carries an `auto_focus` key at all is the first text-like spec
marked. -/
def add_autofocus (spec_inputs : List (List (String × PyVal))) :
    List (List (String × PyVal)) :=
  if spec_inputs.all (fun i => ! keyIn i "auto_focus") then
    mark_first_focus spec_inputs
  else spec_inputs

/-- The state `input_group` extracts from one single-input coroutine's
captured frame locals (input.py lines 296-302): its `item_spec` plus its
`preprocess_func` and `valid_func`.  The two function objects are carried
as opaque `PyVal` tags — `input_group` only stores them in name-keyed
dictionaries. -/
structure InputUnit where
  item_spec : List (String × PyVal)
  preprocess : PyVal
  valid : PyVal

/-- What `input_control(spec, ...)` receives from `input_group`
(input.py lines 312-314). -/
structure FormControl where
  spec_label : PyVal
  spec_inputs : List (List (String × PyVal))
  preprocess_funcs : List (String × PyVal)
  item_valid_funcs : List (String × PyVal)

/-- `input_kwargs['item_spec']['name']` (input.py line 299): a missing key
raises `KeyError`; a name used as a dict key is a string here. -/
def extract_name (u : InputUnit) : Except String String :=
  match pyDictGet u.item_spec "name" with
  | some (.pystr s) => .ok s
  | some _ => .error "TypeError: spec name is not a string"
  | Option.none => .error "KeyError: name"

/-- The name-extraction part of the loop of `input_group` (input.py lines
296-302): each unit's name is read in order; a missing one aborts with the
`KeyError` the Python subscript raises. -/
def extract_names : List InputUnit → Except String (List String)
  | [] => .ok []
  | u :: rest => do
      let n ← extract_name u
      let ns ← extract_names rest
      pure (n :: ns)

/-- The spec-building part of `input_group` (input.py lines 269-314).  The
extraction loop is rendered as: pull each unit's name (lines 296-302,
failing on a missing one), record its `preprocess_func` and `valid_func`
under that name — a later unit with the same name overwrites the earlier
entry, exactly as repeated Python dict assignment does — collect the
`item_spec`s in order, apply the auto-focus default, and assemble the form
spec.  Nowhere does the code compare names for uniqueness. -/
def input_group (label : PyVal) (inputs : List InputUnit) :
    Except String FormControl := do
  let names ← extract_names inputs
  let pairs := names.zip inputs
  let preprocess_funcs :=
    pairs.foldl (fun d p => pyDictSet d p.1 p.2.preprocess) []
  let item_valid_funcs :=
    pairs.foldl (fun d p => pyDictSet d p.1 p.2.valid) []
  let spec_inputs := add_autofocus (inputs.map (fun u => u.item_spec))
  pure ⟨label, spec_inputs, preprocess_funcs, item_valid_funcs⟩

/-- Index of a character in the base64 alphabet. -/
def b64Index (c : Char) : Option Nat :=
  List.findIdx?
    (fun x => x = c)
    ("ABCDEFGHIJKLMNOPQRSTUVWXYZabcdefghijklmnopqrstuvwxyz0123456789+/".toList)

/-- The one or two bytes a terminating pad sequence flushes out of a
partial quad of two or three data characters. -/
def b64Flush (quad : List Nat) : List Nat :=
  match quad with
  | [q0, q1] => [q0 * 4 + q1 / 16]
  | [q0, q1, q2] => [q0 * 4 + q1 / 16, (q1 % 16) * 16 + q2 / 4]
  | _ => []

/-- The character loop of `binascii.a2b_base64` in its default lenient
mode, the state being the remaining input, the data characters of the
current quad (as 6-bit values), the running pad count and the output
bytes.  A `=` at quad position two or three counts toward the pad tally
and, once position plus pads reaches four, flushes the partial quad and
ends decoding (input after it is ignored); a `=` anywhere else is skipped.
A data character resets the pad tally, extends the quad and emits three
bytes when the quad completes; any other character is discarded.  Input
that ends inside a quad is the `binascii.Error: Incorrect padding`. -/
def b64Loop : List Char → List Nat → Nat → List Nat → Except String (List Nat)
  | [], quad, _pads, out =>
      if quad = [] then .ok out else .error "Incorrect padding"
  | ch :: rest, quad, pads, out =>
      if ch = '=' then
        if 2 ≤ quad.length then
          if 4 ≤ quad.length + (pads + 1) then .ok (out ++ b64Flush quad)
          else b64Loop rest quad (pads + 1) out
        else b64Loop rest quad pads out
      else
        match b64Index ch with
        | some v =>
            match quad with
            | [q0, q1, q2] =>
                b64Loop rest [] 0
                  (out ++ [q0 * 4 + q1 / 16, (q1 % 16) * 16 + q2 / 4,
                           (q2 % 4) * 64 + v])
            | _ => b64Loop rest (quad ++ [v]) 0 out
        | Option.none => b64Loop rest quad pads out

/-- `base64.b64decode` on a string (input.py line 27 imports it, line 263
applies it): the string must be pure ASCII (`_bytes_from_decode_data`
encodes it as ASCII first, raising `ValueError` otherwise), and is then fed
to the lenient `binascii.a2b_base64` loop. -/
def b64decodePy (s : String) : Except String (List Nat) :=
  if s.toList.all (fun ch => ch.toNat < 128) then b64Loop s.toList [] 0 []
  else .error "string argument should contain only ASCII characters"

/-- Split a character list at its first occurrence of `sep`. -/
def splitFirstList (sep : Char) : List Char → Option (List Char × List Char)
  | [] => Option.none
  | c :: t =>
      if c = sep then some ([], t)
      else (splitFirstList sep t).map (fun p => (c :: p.1, p.2))

/-- Split a string at its first occurrence of `sep`, as `s.split(sep, 1)`
produces two pieces — `none` when `sep` does not occur, in which case
unpacking `header, encoded = ...` raises `ValueError`. -/
def splitFirst (s : String) (sep : Char) : Option (String × String) :=
  (splitFirstList sep s.toList).map (fun p => (⟨p.1⟩, ⟨p.2⟩))

/-- `read_file` as defined inside `file_upload` (input.py lines 261-264):
`header, encoded = data['dataurl'].split(",", 1)` then
`data['content'] = b64decode(encoded)` and the same dict is returned —
modelled as updating the `content` key of the given dict in place, every
other entry kept untouched. -/
def read_file (data : List (String × PyVal)) :
    Except String (List (String × PyVal)) :=
  match pyDictGet data "dataurl" with
  | some (.pystr s) =>
      match splitFirst s ',' with
      | some hd_enc =>
          (b64decodePy hd_enc.2).map
            (fun bs => pyDictSet data "content" (.pybytes bs))
      | Option.none => .error "ValueError: not enough values to unpack"
  | some _ => .error "AttributeError: dataurl is not a string"
  | Option.none => .error "KeyError: dataurl"

/-! Basic lemmas about the ordered-dict operations. -/

theorem pyDictGet_set (d : List (String × PyVal)) (k : String) (v : PyVal)
    (k2 : String) :
    pyDictGet (pyDictSet d k v) k2 = if k2 = k then some v else pyDictGet d k2 := by
  induction d with
  | nil =>
      by_cases h : k2 = k
      · simp [pyDictSet, pyDictGet, h]
      · simp [pyDictSet, pyDictGet, h, Ne.symm h]
  | cons p t ih =>
      by_cases hp : p.1 = k
      · subst hp
        by_cases h2 : k2 = p.1
        · subst h2; simp [pyDictSet, pyDictGet]
        · simp [pyDictSet, pyDictGet, h2, Ne.symm h2]
      · by_cases h2 : p.1 = k2
        · subst h2; simp [pyDictSet, pyDictGet, hp]
        · simp [pyDictSet, pyDictGet, hp, h2, ih]

theorem keyIn_false_iff (d : List (String × PyVal)) (k : String) :
    keyIn d k = false ↔ pyDictGet d k = Option.none := by
  cases h : pyDictGet d k <;> simp [keyIn, h]

theorem keyIn_true_iff (d : List (String × PyVal)) (k : String) :
    keyIn d k = true ↔ ∃ v, pyDictGet d k = some v := by
  cases h : pyDictGet d k <;> simp [keyIn, h]

theorem pyDictGet_eq_none_of_not_mem_keys (d : List (String × PyVal))
    (k : String) (h : k ∉ d.map Prod.fst) : pyDictGet d k = Option.none := by
  induction d with
  | nil => rfl
  | cons p t ih =>
      simp only [List.map_cons, List.mem_cons] at h
      push_neg at h
      have h1 : ¬ p.1 = k := fun he => h.1 he.symm
      simp only [pyDictGet, h1, if_false]
      exact ih h.2

theorem pyDictGet_pop (d : List (String × PyVal)) (k k2 : String) :
    pyDictGet (pyDictPop d k) k2 =
      if k2 = k then Option.none else pyDictGet d k2 := by
  induction d with
  | nil => by_cases h : k2 = k <;> simp [pyDictPop, pyDictGet, h]
  | cons p t ih =>
      by_cases hp : p.1 = k
      · subst hp
        by_cases h2 : k2 = p.1
        · subst h2; simp [pyDictPop, pyDictGet, ih]
        · simp [pyDictPop, pyDictGet, ih, h2, Ne.symm h2]
      · by_cases h2 : p.1 = k2
        · subst h2
          simp [pyDictPop, pyDictGet, hp, fun he : p.1 = k => hp he]
        · simp [pyDictPop, pyDictGet, hp, h2, ih]

theorem pyDictUpdate_cons (d : List (String × PyVal)) (p : String × PyVal)
    (t : List (String × PyVal)) :
    pyDictUpdate d (p :: t) = pyDictUpdate (pyDictSet d p.1 p.2) t := rfl

theorem pyDictGet_update_notin (e d : List (String × PyVal)) (k : String)
    (h : keyIn e k = false) :
    pyDictGet (pyDictUpdate d e) k = pyDictGet d k := by
  induction e generalizing d with
  | nil => rfl
  | cons p t ih =>
      rw [keyIn_false_iff] at h
      by_cases hp : p.1 = k
      · simp [pyDictGet, hp] at h
      · have ht : keyIn t k = false := by
          rw [keyIn_false_iff]
          simpa [pyDictGet, hp] using h
        rw [pyDictUpdate_cons, ih _ ht, pyDictGet_set,
          if_neg (fun he : k = p.1 => hp he.symm)]

theorem pyDictGet_update_in (e d : List (String × PyVal)) (k : String)
    (hnd : (e.map Prod.fst).Nodup) (h : keyIn e k = true) :
    pyDictGet (pyDictUpdate d e) k = pyDictGet e k := by
  induction e generalizing d with
  | nil => simp [keyIn, pyDictGet] at h
  | cons p t ih =>
      have hnd2 : (t.map Prod.fst).Nodup := (List.nodup_cons.mp hnd).2
      have hpm : p.1 ∉ t.map Prod.fst := (List.nodup_cons.mp hnd).1
      by_cases hp : p.1 = k
      · have ht : keyIn t k = false := by
          rw [keyIn_false_iff]
          exact pyDictGet_eq_none_of_not_mem_keys _ _ (hp ▸ hpm)
        rw [pyDictUpdate_cons, pyDictGet_update_notin _ _ _ ht, pyDictGet_set,
          if_pos hp.symm]
        simp [pyDictGet, hp]
      · have ht : keyIn t k = true := by
          rw [keyIn_true_iff] at h ⊢
          simpa [pyDictGet, hp] using h
        rw [pyDictUpdate_cons, ih _ hnd2 ht]
        simp [pyDictGet, hp]

theorem pyDictGet_filterNone (d : List (String × PyVal)) (k : String)
    (hnd : (d.map Prod.fst).Nodup) :
    pyDictGet (d.filter (fun p => ! p.2.isNone)) k =
      (pyDictGet d k).bind
        (fun v => if v.isNone then Option.none else some v) := by
  induction d with
  | nil => rfl
  | cons p t ih =>
      have hnd2 : (t.map Prod.fst).Nodup := (List.nodup_cons.mp hnd).2
      have hpm : p.1 ∉ t.map Prod.fst := (List.nodup_cons.mp hnd).1
      by_cases hp : p.1 = k
      · by_cases hn : p.2.isNone
        · rw [List.filter_cons_of_neg (by simpa using hn)]
          rw [ih hnd2, pyDictGet_eq_none_of_not_mem_keys _ _ (hp ▸ hpm)]
          simp [pyDictGet, hp, hn]
        · rw [List.filter_cons_of_pos (by simpa using hn)]
          simp [pyDictGet, hp, hn]
      · by_cases hn : p.2.isNone
        · rw [List.filter_cons_of_neg (by simpa using hn)]
          rw [ih hnd2]
          simp [pyDictGet, hp]
        · rw [List.filter_cons_of_pos (by simpa using hn)]
          simp [pyDictGet, hp, ih hnd2]

/-! Lemmas about the auto-focus default. -/

theorem mark_first_focus_no_textlike (specs : List (List (String × PyVal)))
    (h : ∀ i ∈ specs, spec_is_textlike i = false) :
    mark_first_focus specs = specs := by
  induction specs with
  | nil => rfl
  | cons i t ih =>
      have hi : spec_is_textlike i = false := h i (List.mem_cons_self i t)
      simp [mark_first_focus, hi]
      exact ih (fun j hj => h j (List.mem_cons_of_mem _ hj))

theorem mark_first_focus_split (pre : List (List (String × PyVal)))
    (i : List (String × PyVal)) (post : List (List (String × PyVal)))
    (hpre : ∀ j ∈ pre, spec_is_textlike j = false)
    (hi : spec_is_textlike i = true) :
    mark_first_focus (pre ++ i :: post) =
      pre ++ pyDictSet i "auto_focus" (.pybool true) :: post := by
  induction pre with
  | nil => simp [mark_first_focus, hi]
  | cons j t ih =>
      have hj : spec_is_textlike j = false := hpre j (List.mem_cons_self j t)
      simp [mark_first_focus, hj]
      exact ih (fun x hx => hpre x (List.mem_cons_of_mem _ hx))

/-! Lemmas about the model of the built-in `int`. -/

theorem isDigit_not_pyspace (c : Char) (h : c.isDigit = true) :
    pyIsSpace c = false := by
  by_contra hw
  simp only [Bool.not_eq_false] at hw
  simp only [pyIsSpace, Bool.or_eq_true, decide_eq_true_eq] at hw
  rcases hw with ((((((((h1 | h1) | h1) | h1) | h1) | h1) | h1) | h1) | h1) | h1 <;>
    subst h1 <;> revert h <;> decide

theorem isDigit_ne_underscore (c : Char) (h : c.isDigit = true) : ¬ c = '_' := by
  rintro rfl
  revert h
  decide

theorem dropWhile_eq_self_of_all_false (p : Char → Bool) (l : List Char)
    (h : ∀ c ∈ l, p c = false) : l.dropWhile p = l := by
  cases l with
  | nil => rfl
  | cons c t => simp [List.dropWhile, h c (List.mem_cons_self c t)]

theorem stripWS_eq_self (cs : List Char)
    (h : ∀ c ∈ cs, pyIsSpace c = false) : stripWS cs = cs := by
  unfold stripWS
  rw [dropWhile_eq_self_of_all_false _ _ h]
  rw [dropWhile_eq_self_of_all_false _ _ (fun c hc => h c (List.mem_reverse.mp hc))]
  simp

theorem mem_dropWhile_of_mem (p : Char → Bool) (l : List Char) (c : Char)
    (hc : c ∈ l) (hp : p c = false) : c ∈ l.dropWhile p := by
  induction l with
  | nil => simp at hc
  | cons a t ih =>
      by_cases ha : p a
      · rw [List.dropWhile_cons_of_pos ha]
        rcases List.mem_cons.mp hc with he | hm
        · subst he; rw [hp] at ha; exact absurd ha (by simp)
        · exact ih hm
      · rw [List.dropWhile_cons_of_neg ha]
        exact hc

theorem mem_stripWS (cs : List Char) (c : Char) (hc : c ∈ cs)
    (hw : pyIsSpace c = false) : c ∈ stripWS cs := by
  unfold stripWS
  rw [List.mem_reverse]
  apply mem_dropWhile_of_mem _ _ _ _ hw
  rw [List.mem_reverse]
  exact mem_dropWhile_of_mem _ _ _ hc hw

theorem groupedAux_of_digits (t : List Char) (prev : Char)
    (hp : prev.isDigit = true) (h : ∀ c ∈ t, c.isDigit = true) :
    groupedAux prev t = true := by
  induction t generalizing prev with
  | nil => simp [groupedAux, isDigit_ne_underscore prev hp]
  | cons a t2 ih =>
      have ha : a.isDigit = true := h a (List.mem_cons_self a t2)
      simp only [groupedAux, if_neg (isDigit_ne_underscore a ha), ha,
        ih a ha (fun x hx => h x (List.mem_cons_of_mem _ hx)), Bool.and_self]

theorem groupedAux_false_of_bad (t : List Char) (c : Char) (hc : c ∈ t)
    (hd : c.isDigit = false) (hu : ¬ c = '_') :
    ∀ prev, groupedAux prev t = false := by
  induction t with
  | nil => simp at hc
  | cons a t2 ih =>
      intro prev
      by_cases hau : a = '_'
      · have hct : c ∈ t2 := by
          rcases List.mem_cons.mp hc with he | hm
          · exact absurd (he.trans hau) hu
          · exact hm
        simp [groupedAux, hau, ih hct]
      · rcases List.mem_cons.mp hc with he | hm
        · subst he
          simp [groupedAux, hau, hd]
        · simp [groupedAux, hau, ih hm]

theorem parseDigits_eq_none_of_bad (l : List Char) (c : Char) (hc : c ∈ l)
    (hd : c.isDigit = false) (hu : ¬ c = '_') : parseDigits l = Option.none := by
  cases l with
  | nil => rfl
  | cons a t =>
      rcases List.mem_cons.mp hc with he | hm
      · subst he
        simp [parseDigits, hd]
      · simp [parseDigits, groupedAux_false_of_bad t c hm hd hu a]

theorem parseDigits_of_digits (l : List Char) (h0 : l ≠ [])
    (h : ∀ c ∈ l, c.isDigit = true) : parseDigits l = some (natOfDigits l) := by
  cases l with
  | nil => exact absurd rfl h0
  | cons c t =>
      have hc : c.isDigit = true := h c (List.mem_cons_self c t)
      have hg : groupedAux c t = true :=
        groupedAux_of_digits t c hc (fun x hx => h x (List.mem_cons_of_mem _ hx))
      have hf : (c :: t).filter (fun x => ! (x = '_')) = c :: t :=
        List.filter_eq_self.mpr (fun a ha => by
          simp [isDigit_ne_underscore a (h a ha)])
      simp [parseDigits, hc, hg, hf]

theorem pyIntOfString_digits (s : String) (h0 : s.toList ≠ [])
    (h : ∀ c ∈ s.toList, c.isDigit = true) :
    pyIntOfString s = .ok ((natOfDigits s.toList : Nat) : Int) := by
  have hs : stripWS s.toList = s.toList :=
    stripWS_eq_self _ (fun c hc => isDigit_not_pyspace c (h c hc))
  unfold pyIntOfString
  split
  · rename_i heq
    rw [hs] at heq
    exact absurd heq h0
  · rename_i c t heq
    rw [hs] at heq
    have hcd : c.isDigit = true := h c (by rw [heq]; exact List.mem_cons_self c t)
    have hminus : ¬ c = '-' := by rintro rfl; revert hcd; decide
    have hplus : ¬ c = '+' := by rintro rfl; revert hcd; decide
    rw [if_neg hminus, if_neg hplus,
      parseDigits_of_digits (c :: t) (by simp) (fun x hx => h x (by rw [heq]; exact hx)),
      heq]

theorem pyIntOfString_badchar (s : String) (c : Char) (hc : c ∈ s.toList)
    (hd : c.isDigit = false) (hm : ¬ c = '-') (hp : ¬ c = '+')
    (hu : ¬ c = '_') (hw : pyIsSpace c = false) :
    pyIntOfString s = .error "invalid literal for int()" := by
  have hmem : c ∈ stripWS s.toList := mem_stripWS _ _ hc hw
  unfold pyIntOfString
  split
  · rfl
  · rename_i a t heq
    rw [heq] at hmem
    by_cases ham : a = '-'
    · rw [if_pos ham]
      have hct : c ∈ t := by
        rcases List.mem_cons.mp hmem with he | hmm
        · exact absurd (he.trans ham) hm
        · exact hmm
      rw [parseDigits_eq_none_of_bad t c hct hd hu]
    · rw [if_neg ham]
      by_cases hap : a = '+'
      · rw [if_pos hap]
        have hct : c ∈ t := by
          rcases List.mem_cons.mp hmem with he | hmm
          · exact absurd (he.trans hap) hp
          · exact hmm
        rw [parseDigits_eq_none_of_bad t c hct hd hu]
      · rw [if_neg hap]
        rw [parseDigits_eq_none_of_bad (a :: t) c hmem hd hu]

/-! Lemmas about data-URL splitting. -/

theorem splitFirstList_append (sep : Char) (hd tl : List Char)
    (h : sep ∉ hd) : splitFirstList sep (hd ++ sep :: tl) = some (hd, tl) := by
  induction hd with
  | nil => simp [splitFirstList]
  | cons c t ih =>
      have hc : ¬ c = sep := by
        intro he; exact h (he ▸ List.mem_cons_self c t)
      simp [splitFirstList, hc, ih (fun hm => h (List.mem_cons_of_mem _ hm))]

theorem splitFirstList_eq_none (sep : Char) (l : List Char) (h : sep ∉ l) :
    splitFirstList sep l = Option.none := by
  induction l with
  | nil => rfl
  | cons c t ih =>
      have hc : ¬ c = sep := by
        intro he; subst he; exact h (List.mem_cons_self c t)
      simp [splitFirstList, hc, ih (fun hm => h (List.mem_cons_of_mem _ hm))]

theorem splitFirst_append (header payload : String) (h : ',' ∉ header.toList) :
    splitFirst (header ++ "," ++ payload) ',' = some (header, payload) := by
  obtain ⟨hd⟩ := header
  obtain ⟨pl⟩ := payload
  have h2 : ',' ∉ hd := h
  unfold splitFirst
  have htl : (String.mk hd ++ "," ++ String.mk pl).toList = (hd ++ [',']) ++ pl := rfl
  rw [htl, List.append_assoc, List.singleton_append,
    splitFirstList_append ',' hd pl h2]
  rfl

theorem splitFirst_eq_none (s : String) (h : ',' ∉ s.toList) :
    splitFirst s ',' = Option.none := by
  unfold splitFirst
  rw [splitFirstList_eq_none ',' s.toList h]
  rfl

/-! The claims. -/

/-- C1 (counterexample): two fields that carry the same name `a` do NOT make
`input_group` fail — the build succeeds and produces a form specification
holding both field specs, refuting the claim that a duplicate name is
rejected with a `SpecificationError` at build time. -/
theorem input_group_duplicate_names_accepted :
    input_group (PyVal.pystr "g")
      [⟨[("type", PyVal.pystr "text"), ("name", PyVal.pystr "a")],
          PyVal.pyint 1, PyVal.pyint 10⟩,
       ⟨[("type", PyVal.pystr "text"), ("name", PyVal.pystr "a")],
          PyVal.pyint 2, PyVal.pyint 20⟩] =
    .ok ⟨PyVal.pystr "g",
      [[("type", PyVal.pystr "text"), ("name", PyVal.pystr "a"),
          ("auto_focus", PyVal.pybool true)],
       [("type", PyVal.pystr "text"), ("name", PyVal.pystr "a")]],
      [("a", PyVal.pyint 2)], [("a", PyVal.pyint 20)]⟩ := rfl

/-- C1 (amended): `input_group` performs no name-uniqueness validation.
Two units with the same name are both accepted: the form specification
contains both field specs (subject only to the auto-focus default), and in
the name-keyed preprocess/validator maps the later unit's functions
silently overwrite the earlier unit's. -/
theorem input_group_no_uniqueness_check (label : PyVal) (u1 u2 : InputUnit)
    (n : String)
    (h1 : pyDictGet u1.item_spec "name" = some (.pystr n))
    (h2 : pyDictGet u2.item_spec "name" = some (.pystr n)) :
    ∃ form, input_group label [u1, u2] = .ok form ∧
      form.spec_inputs = add_autofocus [u1.item_spec, u2.item_spec] ∧
      pyDictGet form.preprocess_funcs n = some u2.preprocess ∧
      pyDictGet form.item_valid_funcs n = some u2.valid := by
  refine ⟨⟨label, add_autofocus [u1.item_spec, u2.item_spec],
    pyDictSet (pyDictSet [] n u1.preprocess) n u2.preprocess,
    pyDictSet (pyDictSet [] n u1.valid) n u2.valid⟩, ?_, rfl, ?_, ?_⟩
  · simp [input_group, extract_names, extract_name, h1, h2, List.zip,
      List.zipWith, List.foldl, Except.instMonad, Except.bind, Except.pure]
  · simp [pyDictSet, pyDictGet]
  · simp [pyDictSet, pyDictGet]

/-- C1 (witness for the amended claim). -/
theorem input_group_no_uniqueness_check_witness :
    ∃ form, input_group (PyVal.pystr "g2")
      [⟨[("name", PyVal.pystr "x")], PyVal.pyint 3, PyVal.pyint 30⟩,
       ⟨[("name", PyVal.pystr "x")], PyVal.pyint 4, PyVal.pyint 40⟩] =
        .ok form ∧
      form.spec_inputs =
        add_autofocus [[("name", PyVal.pystr "x")], [("name", PyVal.pystr "x")]] ∧
      pyDictGet form.preprocess_funcs "x" = some (PyVal.pyint 4) ∧
      pyDictGet form.item_valid_funcs "x" = some (PyVal.pyint 40) :=
  input_group_no_uniqueness_check (PyVal.pystr "g2") _ _ "x" rfl rfl

/-- C2 (code evaluated at the failing input): the claim says a positional
sequence `(value, label)` of length 2 normalizes to `value = "a"`,
`label = "b"`; but the code tests `isinstance(opt, list)` only, so the
2-tuple — positional per the `select` docstring "tuple or list" — lands in
the scalar branch and BOTH `value` and `label` become the whole tuple. -/
theorem select_options_tuple_scalarized :
    _parse_select_options [.pytuple [.pystr "a", .pystr "b"]] =
      .ok [.pydict [("value", .pytuple [.pystr "a", .pystr "b"]),
                    ("label", .pytuple [.pystr "a", .pystr "b"])]] := rfl

/-- C3: the auto-focus default of `input_group`.  (1) If some field already
carries the `auto_focus` key, nothing is changed.  (2) If no field carries
it and no field is text-like (text/number/password/select), nothing is
changed.  (3) If no field carries it, the first text-like field in
declaration order — and only it — receives `auto_focus = True`. -/
theorem input_group_autofocus_default (specs : List (List (String × PyVal))) :
    ((∃ i ∈ specs, keyIn i "auto_focus" = true) → add_autofocus specs = specs)
    ∧ ((∀ i ∈ specs, keyIn i "auto_focus" = false) →
        (∀ i ∈ specs, spec_is_textlike i = false) → add_autofocus specs = specs)
    ∧ (∀ pre i post,
        specs = pre ++ i :: post →
        (∀ j ∈ specs, keyIn j "auto_focus" = false) →
        (∀ j ∈ pre, spec_is_textlike j = false) →
        spec_is_textlike i = true →
        add_autofocus specs =
          pre ++ pyDictSet i "auto_focus" (.pybool true) :: post) := by
  refine ⟨?_, ?_, ?_⟩
  · rintro ⟨i, hi, hk⟩
    have hall : specs.all (fun i => ! keyIn i "auto_focus") = false := by
      rw [Bool.eq_false_iff]
      intro hall
      rw [List.all_eq_true] at hall
      have hfa := hall i hi
      rw [hk] at hfa
      exact absurd hfa (by simp)
    simp [add_autofocus, hall]
  · intro hk ht
    have hall : specs.all (fun i => ! keyIn i "auto_focus") = true :=
      List.all_eq_true.mpr (fun i hi => by rw [hk i hi]; rfl)
    simp only [add_autofocus, hall, if_true]
    exact mark_first_focus_no_textlike specs ht
  · intro pre i post hspec hk hpre hi
    subst hspec
    have hall : (pre ++ i :: post).all (fun j => ! keyIn j "auto_focus") = true :=
      List.all_eq_true.mpr (fun j hj => by rw [hk j hj]; rfl)
    simp only [add_autofocus, hall, if_true]
    exact mark_first_focus_split pre i post hpre hi

/-- C3 (witness): fields `[checkbox, number, text]`, none pre-flagged — the
`number` field, the first text-like one, receives auto-focus. -/
theorem input_group_autofocus_default_witness :
    add_autofocus
      [[("type", PyVal.pystr "checkbox")], [("type", PyVal.pystr "number")],
       [("type", PyVal.pystr "text")]] =
      [[("type", PyVal.pystr "checkbox")],
       [("type", PyVal.pystr "number"), ("auto_focus", PyVal.pybool true)],
       [("type", PyVal.pystr "text")]] :=
  (input_group_autofocus_default _).2.2 [[("type", PyVal.pystr "checkbox")]]
    [("type", PyVal.pystr "number")] [[("type", PyVal.pystr "text")]] rfl
    (by decide) (by decide) (by decide)

/-- C4: for a number field the attached Preprocessing Transform parses a
numeric raw string into the integer it denotes; a raw string containing an
ASCII character that can be part of no `int()` literal — no decimal digit,
sign, PEP-515 digit-group underscore, or whitespace — makes the transform
raise, and the single-field pipeline surfaces that as a validation error
scoped to the field's name, not as a fatal failure.  (The ASCII bound marks
the range on which the `int()` model is exact: CPython additionally accepts
non-ASCII decimal digits and whitespace.)  For every non-number kind the
transform is the identity. -/
theorem number_preprocess_field_scoped (n : String) :
    (∀ s : String, s.toList ≠ [] → (∀ c ∈ s.toList, c.isDigit = true) →
        preprocess_func NUMBER (.pystr s) =
          .ok (.pyint (natOfDigits s.toList)) ∧
        resolve_single n NUMBER (.pystr s) =
          .resolved (.pyint (natOfDigits s.toList)))
    ∧ (∀ (s : String) (c : Char), c ∈ s.toList → c.toNat < 128 →
        c.isDigit = false → ¬ c = '-' → ¬ c = '+' → ¬ c = '_' →
        pyIsSpace c = false →
        preprocess_func NUMBER (.pystr s) =
          .error "invalid literal for int()" ∧
        resolve_single n NUMBER (.pystr s) =
          .fieldError n "invalid literal for int()")
    ∧ (∀ (type : String) (d : PyVal), ¬ type = NUMBER →
        preprocess_func type d = .ok d) := by
  refine ⟨?_, ?_, ?_⟩
  · intro s h0 h
    have hint : pyIntOfString s = .ok ((natOfDigits s.toList : Nat) : Int) :=
      pyIntOfString_digits s h0 h
    refine ⟨?_, ?_⟩
    · simp [preprocess_func, int_builtin, hint, Except.map]
    · simp [resolve_single, preprocess_func, int_builtin, hint, Except.map]
  · intro s c hc _hascii hd hm hp hu hw
    have hint := pyIntOfString_badchar s c hc hd hm hp hu hw
    refine ⟨?_, ?_⟩
    · simp [preprocess_func, int_builtin, hint, Except.map]
    · simp [resolve_single, preprocess_func, int_builtin, hint, Except.map]
  · intro type d ht
    simp [preprocess_func, ht]

/-- C4 (witness): the number field `age` resolves `"17"` to the integer 17
and turns `"abc"` into a field-scoped validation error. -/
theorem number_preprocess_field_scoped_witness :
    resolve_single "age" NUMBER (.pystr "17") = .resolved (.pyint 17) ∧
    resolve_single "age" NUMBER (.pystr "abc") =
      .fieldError "age" "invalid literal for int()" :=
  ⟨((number_preprocess_field_scoped "age").1 "17" (by decide) (by decide)).2,
   ((number_preprocess_field_scoped "age").2.1 "abc" 'a' (by decide) (by decide)
      (by decide) (by decide) (by decide) (by decide) (by decide)).2⟩

/-- C5 (code evaluated at the failing input): the claim says a positional
option sequence with fewer than 2 elements fails with `SpecificationError`;
but a ONE-element tuple is not an `isinstance(opt, list)`, so the length
assert never runs: the tuple is accepted via the scalar branch instead of
failing. -/
theorem select_options_short_tuple_accepted :
    _parse_select_options [.pytuple [.pystr "a"]] =
      .ok [.pydict [("value", .pytuple [.pystr "a"]),
                    ("label", .pytuple [.pystr "a"])]] := rfl

/-- C6: a well-formed data URL — any string with a comma, whose part after
the first comma base64-decodes — makes `read_file` resolve to the submitted
mapping extended with `content` holding exactly the decoded payload bytes;
a payload without a comma, or whose base64 part is malformed, makes
`read_file` fail with the corresponding decode error. -/
theorem read_file_wellformed_dataurl :
    (∀ (f : PyVal) (header payload : String) (bs : List Nat),
        ',' ∉ header.toList → b64decodePy payload = .ok bs →
        read_file [("filename", f),
            ("dataurl", .pystr (header ++ "," ++ payload))] =
          .ok [("filename", f),
               ("dataurl", .pystr (header ++ "," ++ payload)),
               ("content", .pybytes bs)])
    ∧ (∀ (f : PyVal) (u : String), ',' ∉ u.toList →
        read_file [("filename", f), ("dataurl", .pystr u)] =
          .error "ValueError: not enough values to unpack")
    ∧ (∀ (f : PyVal) (header payload : String) (msg : String),
        ',' ∉ header.toList → b64decodePy payload = .error msg →
        read_file [("filename", f),
            ("dataurl", .pystr (header ++ "," ++ payload))] = .error msg) := by
  refine ⟨?_, ?_, ?_⟩
  · intro f header payload bs hh hb
    have hsplit := splitFirst_append header payload hh
    simp [read_file, pyDictGet, hsplit, hb, Except.map, pyDictSet]
  · intro f u hu
    have hsplit := splitFirst_eq_none u hu
    simp [read_file, pyDictGet, hsplit]
  · intro f header payload msg hh hb
    have hsplit := splitFirst_append header payload hh
    simp [read_file, pyDictGet, hsplit, hb, Except.map]

/-- C6 (witness, Scenario C): the data URL
`data:text/plain;base64,aGVsbG8=` resolves to content bytes `hello`. -/
theorem read_file_wellformed_dataurl_witness :
    read_file [("filename", PyVal.pystr "f.txt"),
        ("dataurl", PyVal.pystr ("data:text/plain;base64" ++ "," ++ "aGVsbG8="))] =
      .ok [("filename", PyVal.pystr "f.txt"),
           ("dataurl", PyVal.pystr ("data:text/plain;base64" ++ "," ++ "aGVsbG8=")),
           ("content", PyVal.pybytes [104, 101, 108, 108, 111])] :=
  read_file_wellformed_dataurl.1 (PyVal.pystr "f.txt") "data:text/plain;base64"
    "aGVsbG8=" [104, 101, 108, 108, 111] (by decide) rfl

/-- C9: the Option Normalizer is idempotent on canonical records — a list
whose members are all mappings carrying `value` and `label` keys
re-normalizes to itself, every record unchanged. -/
theorem select_options_idempotent (opts : List PyVal)
    (h : ∀ o ∈ opts, isCanonicalOption o = true) :
    _parse_select_options opts = .ok opts := by
  induction opts with
  | nil => rfl
  | cons o t ih =>
      have ho := h o (List.mem_cons_self o t)
      have hrec := ih (fun x hx => h x (List.mem_cons_of_mem _ hx))
      have hone : parse_one_option o = .ok o := by
        cases o <;> simp [isCanonicalOption] at ho
        simp [parse_one_option, ho]
      simp [_parse_select_options, hone, hrec, Except.instMonad, Except.bind,
        Except.pure]

/-- C9 (witness): a list of two already-canonical records re-normalizes to
itself. -/
theorem select_options_idempotent_witness :
    _parse_select_options
      [PyVal.pydict [("value", PyVal.pystr "A"), ("label", PyVal.pystr "A")],
       PyVal.pydict [("value", PyVal.pyint 2), ("label", PyVal.pystr "two"),
          ("selected", PyVal.pybool true)]] =
    .ok
      [PyVal.pydict [("value", PyVal.pystr "A"), ("label", PyVal.pystr "A")],
       PyVal.pydict [("value", PyVal.pyint 2), ("label", PyVal.pystr "two"),
          ("selected", PyVal.pybool true)]] :=
  select_options_idempotent _ (by decide)

/-- C7: `_parse_args` (i) silently drops a named parameter whose value is
`None` (the key is absent from the output spec), (ii) keeps a named
parameter with any non-`None` value — explicit falsy values like `False`,
`0`, `""` included — and (iii) writes every entry of the extra-attributes
bag last, so on a key collision the extra attribute's value is the one the
output spec carries. -/
theorem parse_args_drop_none_extras_override
    (kwargs E : List (String × PyVal))
    (hnk : (kwargs.map Prod.fst).Nodup) (hnE : (E.map Prod.fst).Nodup)
    (hE : pyDictGet kwargs "other_html_attrs" = some (.pydict E)) :
    (∀ k, ¬ k = "other_html_attrs" → ¬ k = "valid_func" →
        keyIn E k = false → pyDictGet kwargs k = some .pynone →
        pyDictGet (_parse_args kwargs).1 k = Option.none)
    ∧ (∀ k v, ¬ k = "other_html_attrs" → ¬ k = "valid_func" →
        keyIn E k = false → v.isNone = false → pyDictGet kwargs k = some v →
        pyDictGet (_parse_args kwargs).1 k = some v)
    ∧ (∀ k v, ¬ k = "other_html_attrs" → ¬ k = "valid_func" →
        pyDictGet E k = some v →
        pyDictGet (_parse_args kwargs).1 k = some v) := by
  have hkw1 : pyDictGet (kwargs.filter (fun p => ! p.2.isNone))
      "other_html_attrs" = some (.pydict E) := by
    rw [pyDictGet_filterNone _ _ hnk, hE]
    rfl
  have hres : ∀ k, ¬ k = "other_html_attrs" → ¬ k = "valid_func" →
      pyDictGet (_parse_args kwargs).1 k =
        pyDictGet (pyDictUpdate (kwargs.filter (fun p => ! p.2.isNone)) E) k := by
    intro k h1 h2
    simp only [_parse_args]
    rw [hkw1, pyDictGet_pop, if_neg h2, pyDictGet_pop, if_neg h1]
  refine ⟨?_, ?_, ?_⟩
  · intro k h1 h2 hEk hv
    rw [hres k h1 h2, pyDictGet_update_notin _ _ _ hEk,
      pyDictGet_filterNone _ _ hnk, hv]
    rfl
  · intro k v h1 h2 hEk hvn hv
    rw [hres k h1 h2, pyDictGet_update_notin _ _ _ hEk,
      pyDictGet_filterNone _ _ hnk, hv]
    simp [hvn]
  · intro k v h1 h2 hEv
    have hkin : keyIn E k = true := (keyIn_true_iff E k).mpr ⟨v, hEv⟩
    rw [hres k h1 h2, pyDictGet_update_in _ _ _ hnE hkin, hEv]

/-- C7 (witness): on a concrete argument dict, the `None`-valued `value`
parameter is absent from the spec, the explicit `False` of `required` is
kept, and the extra attribute `placeholder` overrides the named
parameter. -/
theorem parse_args_drop_none_extras_override_witness :
    pyDictGet (_parse_args
      [("label", PyVal.pystr "L"), ("value", PyVal.pynone),
       ("required", PyVal.pybool false), ("placeholder", PyVal.pystr "p"),
       ("other_html_attrs", PyVal.pydict
          [("placeholder", PyVal.pystr "x"), ("min", PyVal.pyint 0)])]).1
      "value" = Option.none ∧
    pyDictGet (_parse_args
      [("label", PyVal.pystr "L"), ("value", PyVal.pynone),
       ("required", PyVal.pybool false), ("placeholder", PyVal.pystr "p"),
       ("other_html_attrs", PyVal.pydict
          [("placeholder", PyVal.pystr "x"), ("min", PyVal.pyint 0)])]).1
      "required" = some (PyVal.pybool false) ∧
    pyDictGet (_parse_args
      [("label", PyVal.pystr "L"), ("value", PyVal.pynone),
       ("required", PyVal.pybool false), ("placeholder", PyVal.pystr "p"),
       ("other_html_attrs", PyVal.pydict
          [("placeholder", PyVal.pystr "x"), ("min", PyVal.pyint 0)])]).1
      "placeholder" = some (PyVal.pystr "x") :=
  ⟨(parse_args_drop_none_extras_override
      [("label", PyVal.pystr "L"), ("value", PyVal.pynone),
       ("required", PyVal.pybool false), ("placeholder", PyVal.pystr "p"),
       ("other_html_attrs", PyVal.pydict
          [("placeholder", PyVal.pystr "x"), ("min", PyVal.pyint 0)])]
      [("placeholder", PyVal.pystr "x"), ("min", PyVal.pyint 0)]
      (by decide) (by decide) rfl).1
      "value" (by decide) (by decide) (by decide) rfl,
   (parse_args_drop_none_extras_override
      [("label", PyVal.pystr "L"), ("value", PyVal.pynone),
       ("required", PyVal.pybool false), ("placeholder", PyVal.pystr "p"),
       ("other_html_attrs", PyVal.pydict
          [("placeholder", PyVal.pystr "x"), ("min", PyVal.pyint 0)])]
      [("placeholder", PyVal.pystr "x"), ("min", PyVal.pyint 0)]
      (by decide) (by decide) rfl).2.1
      "required" (PyVal.pybool false) (by decide) (by decide) (by decide)
      rfl rfl,
   (parse_args_drop_none_extras_override
      [("label", PyVal.pystr "L"), ("value", PyVal.pynone),
       ("required", PyVal.pybool false), ("placeholder", PyVal.pystr "p"),
       ("other_html_attrs", PyVal.pydict
          [("placeholder", PyVal.pystr "x"), ("min", PyVal.pyint 0)])]
      [("placeholder", PyVal.pystr "x"), ("min", PyVal.pyint 0)]
      (by decide) (by decide) rfl).2.2
      "placeholder" (PyVal.pystr "x") (by decide) (by decide) rfl⟩

/-- C8: the generic text constructor `input` fails with the kind-check
assert — before any form specification exists — exactly when the requested
kind is outside {text, number, password, textarea}; for a kind inside the
set it succeeds and the produced specification's `type` equals the
requested kind string (the extra-attributes bag not overriding `type`). -/
theorem input_kind_checked (label : PyVal) (type : String) (name : PyVal)
    (value placeholder required readonly disabled help_text : Option PyVal)
    (extras : List (String × PyVal)) :
    ((¬ (type = TEXT ∨ type = NUMBER ∨ type = PASSWORD ∨ type = TEXTAREA)) →
        input label type name value placeholder required readonly disabled
          help_text extras = .error "Input type not allowed.")
    ∧ ((type = TEXT ∨ type = NUMBER ∨ type = PASSWORD ∨ type = TEXTAREA) →
        keyIn extras "type" = false →
        ∃ spec, input label type name value placeholder required readonly
            disabled help_text extras = .ok spec ∧
          pyDictGet spec "type" = some (.pystr type)) := by
  constructor
  · intro h
    simp only [input, if_neg h]
  · intro h hex
    refine ⟨(_parse_args (input_locals label type name value placeholder
        required readonly disabled help_text extras)).1, ?_, ?_⟩
    · simp only [input, if_pos h]
    · have hnk : ((input_locals label type name value placeholder required
          readonly disabled help_text extras).map Prod.fst).Nodup := by
        simp only [input_locals, List.map_cons, List.map_nil]
        decide
      have hget : pyDictGet (input_locals label type name value placeholder
          required readonly disabled help_text extras) "type" =
            some (.pystr type) := by
        simp [input_locals, pyDictGet]
      have hgeto : pyDictGet (input_locals label type name value placeholder
          required readonly disabled help_text extras) "other_html_attrs" =
            some (.pydict extras) := by
        simp [input_locals, pyDictGet]
      have hkw1 : pyDictGet ((input_locals label type name value placeholder
          required readonly disabled help_text extras).filter
            (fun p => ! p.2.isNone)) "other_html_attrs" =
            some (.pydict extras) := by
        rw [pyDictGet_filterNone _ _ hnk, hgeto]
        rfl
      simp only [_parse_args]
      rw [hkw1, pyDictGet_pop, if_neg (by decide : ¬ "type" = "valid_func"),
        pyDictGet_pop, if_neg (by decide : ¬ "type" = "other_html_attrs"),
        pyDictGet_update_notin _ _ _ hex, pyDictGet_filterNone _ _ hnk, hget]
      rfl

/-- C8 (witness): the unsupported kind `email` is rejected eagerly; the
supported kind `number` succeeds with `type = "number"` in the spec. -/
theorem input_kind_checked_witness :
    input (PyVal.pystr "L") "email" (PyVal.pystr "data") Option.none
        Option.none Option.none Option.none Option.none Option.none [] =
      .error "Input type not allowed." ∧
    ∃ spec, input (PyVal.pystr "L") "number" (PyVal.pystr "data") Option.none
        Option.none Option.none Option.none Option.none Option.none [] =
      .ok spec ∧ pyDictGet spec "type" = some (PyVal.pystr "number") :=
  ⟨(input_kind_checked (PyVal.pystr "L") "email" (PyVal.pystr "data")
      Option.none Option.none Option.none Option.none Option.none Option.none
      []).1 (by decide),
   (input_kind_checked (PyVal.pystr "L") "number" (PyVal.pystr "data")
      Option.none Option.none Option.none Option.none Option.none Option.none
      []).2 (by decide) (by decide)⟩

/-- C10: whenever `read_file` succeeds, the mapping it returns is the very
submission dict augmented in place with the `content` key: every other
entry — `dataurl` and `filename` included — is still present, unchanged and
in place. -/
theorem read_file_augments_in_place (data res : List (String × PyVal))
    (h : read_file data = .ok res) :
    ∃ bs, res = pyDictSet data "content" (.pybytes bs) ∧
      keyIn res "content" = true ∧
      ∀ k, ¬ k = "content" → pyDictGet res k = pyDictGet data k := by
  unfold read_file at h
  split at h
  · split at h
    · rename_i s hg hd_enc hs
      cases hb : b64decodePy hd_enc.2 with
      | error e => rw [hb] at h; simp [Except.map] at h
      | ok bs =>
          rw [hb] at h
          simp only [Except.map] at h
          have hres : pyDictSet data "content" (.pybytes bs) = res :=
            Except.ok.inj h
          subst hres
          refine ⟨bs, rfl, ?_, ?_⟩
          · rw [keyIn_true_iff]
            exact ⟨.pybytes bs, by rw [pyDictGet_set]; simp⟩
          · intro k hk
            rw [pyDictGet_set, if_neg hk]
    · simp at h
  · simp at h
  · simp at h

/-- C10 (witness): a concrete successful submission keeps `filename` and
`dataurl` and gains `content`. -/
theorem read_file_augments_in_place_witness :
    ∃ bs, [("filename", PyVal.pystr "f.txt"),
           ("dataurl", PyVal.pystr "data:text/plain;base64,aGVsbG8="),
           ("content", PyVal.pybytes [104, 101, 108, 108, 111])] =
        pyDictSet [("filename", PyVal.pystr "f.txt"),
           ("dataurl", PyVal.pystr "data:text/plain;base64,aGVsbG8=")]
          "content" (PyVal.pybytes bs) ∧
      keyIn [("filename", PyVal.pystr "f.txt"),
           ("dataurl", PyVal.pystr "data:text/plain;base64,aGVsbG8="),
           ("content", PyVal.pybytes [104, 101, 108, 108, 111])]
        "content" = true ∧
      ∀ k, ¬ k = "content" →
        pyDictGet [("filename", PyVal.pystr "f.txt"),
           ("dataurl", PyVal.pystr "data:text/plain;base64,aGVsbG8="),
           ("content", PyVal.pybytes [104, 101, 108, 108, 111])] k =
        pyDictGet [("filename", PyVal.pystr "f.txt"),
           ("dataurl", PyVal.pystr "data:text/plain;base64,aGVsbG8=")] k :=
  read_file_augments_in_place _ _ rfl
